import Mathlib

/-!
Verification of the Blood-on-the-Clocktower rules engine (`src/game.py`,
`src/player.py`) against its natural-language specification.

The engine is embedded shallowly: the roster is a `List PlayerRec`,
the poison graph is the per-player `poisonedBy` adjacency data, and each
engine operation (`_game_over`, `_is_drunk_or_poisoned`, `_run_nomination`'s
entry/virgin section, `_imp_power`, `_kill_player`, `Player.vote`,
`_get_public_game_state`) is a pure Lean function translated line by line
from the Python source.
-/

namespace Botc

/-- `game_enums.Alignment`. -/
inductive Alignment where
  | good
  | evil
deriving DecidableEq, Repr

/-- `game_enums.Vote`. -/
inductive Vote where
  | yes
  | no
  | cantVote
deriving DecidableEq, Repr

/-- The characters of the Trouble Brewing script (`characters.py`): the
members of the `Townsfolk`, `Outsider`, `Minion` and `Demon` enums. -/
inductive Character where
  | washerwoman | librarian | investigator | chef | empath | fortuneteller
  | undertaker | monk | ravenkeeper | virgin | slayer | soldier | mayor
  | butler | saint | recluse | drunk
  | poisoner | spy | baron | scarletWoman
  | imp
deriving DecidableEq, Repr

/-- Category test mirroring `isinstance(c, Townsfolk)`. -/
def Character.isTownsfolk : Character → Bool
  | .washerwoman | .librarian | .investigator | .chef | .empath
  | .fortuneteller | .undertaker | .monk | .ravenkeeper | .virgin
  | .slayer | .soldier | .mayor => true
  | _ => false

/-- Category test mirroring `isinstance(c, Outsider)`. -/
def Character.isOutsider : Character → Bool
  | .butler | .saint | .recluse | .drunk => true
  | _ => false

/-- Category test mirroring `isinstance(c, Minion)`. -/
def Character.isMinion : Character → Bool
  | .poisoner | .spy | .baron | .scarletWoman => true
  | _ => false

/-- Category test mirroring `isinstance(c, Demon)`. -/
def Character.isDemon : Character → Bool
  | .imp => true
  | _ => false

/-- `Game._get_player_roles` returns `{Townsfolk, Outsider}` for the Spy,
`{Minion, Demon}` for the Recluse, and the singleton of the character's
category otherwise.  This predicate is `Townsfolk in _get_player_roles(p)`. -/
def Character.registersTownsfolk (c : Character) : Bool :=
  if c = .spy then true
  else if c = .recluse then false
  else c.isTownsfolk

/-- One entry of `Game._players`: the fields of `player.Player` that the
engine reads or writes, plus this player's entry of the poison graph
`Game._drunk_and_poisoned` (the list of players currently poisoning them,
as roster indices). -/
structure PlayerRec where
  name : String
  alignment : Alignment
  character : Character
  alive : Bool := true
  usedNomination : Bool := false
  nominatedToday : Bool := false
  usedDeadVote : Bool := false
  poisonedBy : List Nat := []
deriving DecidableEq, Repr

instance : Inhabited PlayerRec :=
  ⟨{ name := "", alignment := .good, character := .imp }⟩

/-! ## The poison graph and `_is_drunk_or_poisoned`

`Game._is_drunk_or_poisoned` is a depth-first traversal over the
`_drunk_and_poisoned` graph carrying a mutable `visited` set.  We embed
the graph as plain per-index data and the traversal as a fuel-indexed
function that threads the visited set explicitly; the recursive call of
the Python function becomes a call at one fuel level lower.  Termination
of the Python function is captured by the stabilization theorem: any fuel
of at least `n + 1` (for `n` players) computes the same answer. -/

/-- The data `_is_drunk_or_poisoned` reads: for each roster index, whether
the player is alive, whether their character is the Drunk, and the list of
players poisoning them. -/
structure PoisonGraph where
  alive : List Bool
  drunkChar : List Bool
  poisoners : List (List Nat)
deriving DecidableEq, Repr

/-- Number of players in the graph. -/
def PoisonGraph.n (g : PoisonGraph) : Nat := g.alive.length

def PoisonGraph.aliveAt (g : PoisonGraph) (i : Nat) : Bool := g.alive.getD i false

def PoisonGraph.drunkAt (g : PoisonGraph) (i : Nat) : Bool := g.drunkChar.getD i false

def PoisonGraph.poisonersAt (g : PoisonGraph) (i : Nat) : List Nat := g.poisoners.getD i []

/-- Well-formedness: the index lists line up and poisoners are roster
members (in the Python, the graph's keys and values are all elements of
`self._players`). -/
def PoisonGraph.WF (g : PoisonGraph) : Prop :=
  g.drunkChar.length = g.n ∧ g.poisoners.length = g.n ∧
    ∀ i ∈ List.range g.n, ∀ a ∈ g.poisonersAt i, a < g.n

/-- `visited.add(player)` on the Python `set`. -/
def insertVisited (p : Nat) (visited : List Nat) : List Nat :=
  if p ∈ visited then visited else p :: visited

/-- The `for affecting_player in self._drunk_and_poisoned[player]:` loop of
`_is_drunk_or_poisoned`, parametrized by the recursive call `rec` (the same
function at one fuel level lower).  Skipped iterations
(`affecting_player in visited` or dead) leave the visited set alone; a
recursive call that returns `False` makes the whole call return `True`
(the Python `return True`), and one that returns `True` continues the loop
with the visited set as mutated by the call. -/
def dpLoop (g : PoisonGraph) (rec : Nat → List Nat → Bool × List Nat) :
    List Nat → List Nat → Bool × List Nat
  | [], visited => (false, visited)
  | a :: rest, visited =>
    if a ∈ visited ∨ g.aliveAt a = false then
      dpLoop g rec rest visited
    else if (rec a visited).1 then dpLoop g rec rest (rec a visited).2
    else (true, (rec a visited).2)

/-- `Game._is_drunk_or_poisoned(player, visited)`, fuel-indexed.  Returns
the Boolean result together with the visited set as mutated by the call. -/
def dpAux (g : PoisonGraph) : Nat → Nat → List Nat → Bool × List Nat
  | 0, _, visited => (false, visited)
  | fuel + 1, player, visited =>
    if g.drunkAt player then (true, visited)
    else dpLoop g (dpAux g fuel) (g.poisonersAt player) (insertVisited player visited)

/-- `Game._is_drunk_or_poisoned(player)`: the traversal started with an
empty visited set, run with enough fuel (`n + 1`) to be exact. -/
def isDrunkOrPoisoned (g : PoisonGraph) (player : Nat) : Bool :=
  (dpAux g (g.n + 1) player []).1

/-- Number of roster indices not yet visited: the measure that shrinks
along the traversal's recursion and bounds its depth. -/
def meas (g : PoisonGraph) (vis : List Nat) : Nat :=
  ((List.range g.n).filter (fun x => decide (x ∉ vis))).length

/-! ## Game state and the engine's mutations -/

/-- In-place update of one roster entry (the Python mutates the `Player`
object held at that seat). -/
def modifyAt : List α → Nat → (α → α) → List α
  | [], _, _ => []
  | a :: l, 0, f => f a :: l
  | a :: l, i + 1, f => a :: modifyAt l i f

/-- The slice of `Game` state that the operations under verification read
and write.  Reminder tokens are kept as dedicated fields (one per
`(character, token)` pair that these operations touch); lookups that the
Python does through `_player_dict` / `_character_dict` are derived from
the roster. -/
structure GS where
  players : List PlayerRec
  virginUsed : Bool := false         -- VIRGIN_POWER_USED token present
  ravenkeeperWoken : Option Nat := none
  impKilled : Option Nat := none
  monkProtected : Option Nat := none
  choppingBlock : Option (Nat × Nat) := none   -- (votes, nominee index)
  mayorKillDeflected : Bool := false
deriving DecidableEq, Repr

def GS.getP (gs : GS) (i : Nat) : PlayerRec := gs.players.getD i default

/-- `self._player_dict[name]` resolved through the roster. -/
def GS.findPlayerIdx (gs : GS) (name : String) : Option Nat :=
  gs.players.findIdx? (fun p => p.name = name)

/-- `self._character_dict[c]` resolved through the roster (characters are
unique on the roster in any well-formed game). -/
def GS.findCharIdx (gs : GS) (c : Character) : Option Nat :=
  gs.players.findIdx? (fun p => p.character = c)

/-- The view of a `GS` that `_is_drunk_or_poisoned` reads. -/
def GS.toPG (gs : GS) : PoisonGraph :=
  { alive := gs.players.map (·.alive)
    drunkChar := gs.players.map (fun p => p.character = Character.drunk)
    poisoners := gs.players.map (·.poisonedBy) }

/-- `self._is_drunk_or_poisoned(player)` on the current game state. -/
def GS.isImpaired (gs : GS) (i : Nat) : Bool :=
  isDrunkOrPoisoned gs.toPG i

/-- `sum(1 for player in self._players if player.alive)`. -/
def aliveCount (players : List PlayerRec) : Nat :=
  (players.filter (·.alive)).length

/-- `Game._change_character`: reassign the player's character (the
`_character_dict` bookkeeping is derived here, so only the roster entry
changes). -/
def changeCharacter (gs : GS) (i : Nat) (newChar : Character) : GS :=
  { gs with players := modifyAt gs.players i (fun p => { p with character := newChar }) }

/-- `Game._scarlet_woman_check(dead_player)`: run on the state in which
`dead_player` (at `deadIdx`) has already been marked dead.  If the dead
player's character is a Demon, exactly one living unimpaired Scarlet Woman
exists, and at least 4 players are alive, she takes over the Demon's
character. -/
def scarletWomanCheck (gs : GS) (deadIdx : Nat) : GS :=
  let scarlets := (List.range gs.players.length).filter
    (fun i => (gs.getP i).alive && (gs.getP i).character = Character.scarletWoman
      && !(gs.isImpaired i))
  let alive := aliveCount gs.players
  if (gs.getP deadIdx).character.isDemon ∧ scarlets.length = 1 ∧ 4 ≤ alive then
    match scarlets with
    | w :: _ => changeCharacter gs w (gs.getP deadIdx).character
    | [] => gs
  else gs

/-- `Game._kill_player(player, broadcast, killed_by_demon)` (state changes
only; the broadcast is log output).  Marks the player dead, places the
`RAVENKEEPER_WOKEN` token if a Ravenkeeper was killed by the Demon, then
runs the Scarlet Woman check. -/
def killPlayer (gs : GS) (i : Nat) (killedByDemon : Bool) : GS :=
  let gs1 : GS := { gs with players := modifyAt gs.players i (fun p => { p with alive := false }) }
  let gs2 : GS :=
    if (gs.getP i).character = Character.ravenkeeper ∧ killedByDemon then
      { gs1 with ravenkeeperWoken := some i }
    else gs1
  scarletWomanCheck gs2 i

/-- `Game._safe_from_demon(player)`. -/
def safeFromDemon (gs : GS) (i : Nat) : Bool :=
  if (gs.getP i).character = Character.soldier && !(gs.isImpaired i) then true
  else
    match gs.monkProtected, gs.findCharIdx Character.monk with
    | some protected_, some monk =>
      protected_ = i && (gs.getP monk).alive && !(gs.isImpaired monk)
    | _, _ => false

/-! ## `_game_over` -/

/-- `sum(isinstance(player.character, Demon) for player in self._players if player.alive)`. -/
def livingDemons (players : List PlayerRec) : Nat :=
  (players.filter (fun p => p.alive && p.character.isDemon)).length

/-- `Game._game_over`: Good wins when no living Demon remains; otherwise
Evil wins when at most 2 players are alive; otherwise no winner. -/
def gameOver (players : List PlayerRec) : Option Alignment :=
  if livingDemons players = 0 then some .good
  else if aliveCount players ≤ 2 then some .evil
  else none

/-! ## The nomination tally (`_run_nomination`, vote-resolution section) -/

/-- Lines 1251–1258 of `_run_nomination`: the number of yes votes needed
for the nomination to succeed. -/
def requiredToNominate (block : Option (Nat × Nat)) (livingCount : Nat) : Nat :=
  match block with
  | some (prevCount, _) => prevCount + 1
  | none => if livingCount % 2 = 0 then livingCount / 2 else livingCount / 2 + 1

/-- Lines 1251–1258 of `_run_nomination`: the tie threshold, present only
when the chopping block is occupied. -/
def requiredToTie (block : Option (Nat × Nat)) : Option Nat :=
  match block with
  | some (prevCount, _) => some prevCount
  | none => none

/-- Lines 1319–1330 of `_run_nomination`: the new chopping block computed
from the vote tally `count`. -/
def resolveTally (block : Option (Nat × Nat)) (livingCount count nominee : Nat) :
    Option (Nat × Nat) :=
  if requiredToNominate block livingCount ≤ count then some (count, nominee)
  else
    match requiredToTie block with
    | some tie => if count = tie then none else block
    | none => block

/-! ## `_imp_power` -/

/-- The Python expression `player.name == choice` at line 815 of `game.py`
compares a `str` (the Imp's name) with a `Player` instance (`choice`).
`Player` defines no `__eq__`, so the comparison falls back to default
object identity against a string and is always `False`, whatever the
operands. -/
def pyStrEqPlayer (_name : String) (_playerIdx : Nat) : Bool := false

/-- `_imp_power`'s ordered fallback list for a deflected Mayor kill. -/
def mayorAlternatives : List Character :=
  [.butler, .washerwoman, .librarian, .investigator, .chef,
   .recluse, .ravenkeeper, .monk, .virgin, .soldier]

/-- The `for character in alternative_choices:` scan: the first alternative
character present on the roster whose holder is alive. -/
def firstAliveAlternative (gs : GS) : List Character → Option Nat
  | [] => none
  | c :: rest =>
    match gs.findCharIdx c with
    | some i => if (gs.getP i).alive then some i else firstAliveAlternative gs rest
    | none => firstAliveAlternative gs rest

/-- `Game._imp_power` after a valid single-target choice has been returned
by the decision provider (state changes only).  `impIdx` is the acting
Imp's seat, `targetName` the chosen victim's name.  `pickMinion` stands in
for `random.choice` in the self-kill succession branch. -/
def impPower (gs : GS) (impIdx : Nat) (targetName : String)
    (pickMinion : List Nat → Option Nat) : GS :=
  match gs.findPlayerIdx targetName with
  | none => gs
  | some target =>
    -- Mayor deflection
    let deflect : Option Nat :=
      if (gs.getP target).character = Character.mayor ∧ (gs.getP target).alive
          ∧ gs.isImpaired target = false ∧ gs.mayorKillDeflected = false then
        firstAliveAlternative gs mayorAlternatives
      else none
    let choice := deflect.getD target
    let gs0 : GS := if deflect.isSome then { gs with mayorKillDeflected := true } else gs
    let gs1 : GS := { gs0 with impKilled := some choice }
    if safeFromDemon gs1 choice = false ∧ gs1.isImpaired impIdx = false then
      let gs2 := killPlayer gs1 choice true
      -- `if player.name == choice:` — see `pyStrEqPlayer`
      if pyStrEqPlayer (gs2.getP impIdx).name choice then
        let minions := (List.range gs2.players.length).filter
          (fun i => (gs2.getP i).character.isMinion)
        match pickMinion minions with
        | some newImp => changeCharacter gs2 newImp Character.imp
        | none => gs2
      else gs2
    else gs1

/-! ## `_run_nomination`: entry validation and the Virgin interrupt -/

/-- How `_run_nomination` leaves its validation / Virgin-interrupt prefix
(lines 1192–1224): the two rejection paths, the Virgin kill (the function
returns `True`: the nominator is executed, the day ends, no vote is
taken), or fall-through to the public announcement and the vote. -/
inductive NomPrefixResult where
  | rejectNotFound
  | rejectAlreadyNominated
  | virginKill
  | proceed
deriving DecidableEq, Repr

/-- Lines 1192–1224 of `Game._run_nomination(player, action)`: resolve the
nominee, reject if unknown or already nominated today, mark the per-day
flags, and run the Virgin interrupt.  Returns the outcome tag and the
state as mutated so far. -/
def runNominationPrefix (gs : GS) (nominatorIdx : Nat) (nomineeName : String) :
    NomPrefixResult × GS :=
  match gs.findPlayerIdx nomineeName with
  | none => (.rejectNotFound, gs)
  | some nominee =>
    if (gs.getP nominee).nominatedToday then (.rejectAlreadyNominated, gs)
    else
      let gs1 : GS :=
        { gs with players := modifyAt gs.players nominee (fun p => { p with nominatedToday := true }) }
      let gs2 : GS :=
        { gs1 with players := modifyAt gs1.players nominatorIdx (fun p => { p with usedNomination := true }) }
      if (gs2.getP nominee).character = Character.virgin ∧ gs2.virginUsed = false then
        let gs3 : GS := { gs2 with virginUsed := true }
        if (gs3.getP nominatorIdx).character.registersTownsfolk
            ∧ gs3.isImpaired nominee = false then
          (.virginKill, killPlayer gs3 nominatorIdx false)
        else (.proceed, gs3)
      else (.proceed, gs2)

/-! ## `Player.vote` -/

/-- The decision-provider response that `Player.vote` parses: either a use
of the `vote` tool with the raw `vote` argument string, or anything else
(wrong tool, malformed payload). -/
inductive LLMVoteResp where
  | voteCall (voteStr : String)
  | invalid
deriving DecidableEq, Repr

/-- The per-call inputs of `Player.vote` that influence its result. -/
structure VoteInput where
  butlerMasterChoice : Option String := none
  previousVotes : List (String × Vote) := []
  llm : LLMVoteResp := .invalid
deriving DecidableEq, Repr

/-- ASCII upper-casing of one character, as `str.upper()` acts on the
letters appearing in tool arguments. -/
def charUpper (c : Char) : Char :=
  if 'a' ≤ c ∧ c ≤ 'z' then Char.ofNat (c.toNat - 32) else c

/-- `str.upper()` for ASCII strings (the `vote` tool argument). -/
def asciiUpper (s : String) : String := String.mk (s.data.map charUpper)

/-- The Butler scan in `Player.vote`: find the master among the votes cast
so far in this nomination (first match wins, as the Python `break`s). -/
def findPrevVote (previousVotes : List (String × Vote)) (name : String) : Option Vote :=
  (previousVotes.find? (fun v => v.1 = name)).map (·.2)

/-- The response-parsing tail of `Player.vote`: a `vote` tool call is
upper-cased and matched against `"YES"` (which consumes the ghost vote of
a dead voter) and `"NO"`; an invalid vote string, a wrong tool, or a
non-tool response all fall through to NO. -/
def voteLLMPart (p : PlayerRec) : LLMVoteResp → Vote × PlayerRec
  | .voteCall s =>
    if asciiUpper s = "YES" then
      (.yes, if p.alive then p else { p with usedDeadVote := true })
    else if asciiUpper s = "NO" then (.no, p)
    else (.no, p)
  | .invalid => (.no, p)

/-- `Player.vote` (state-relevant core): returns the recorded vote and the
player record as mutated by the call.  A dead player who has spent their
ghost vote cannot vote; a Butler whose master has not voted yes so far is
forced to NO; otherwise the provider's tool response decides. -/
def voteStep (p : PlayerRec) (inp : VoteInput) : Vote × PlayerRec :=
  if !p.alive && p.usedDeadVote then (.cantVote, p)
  else
    match inp.butlerMasterChoice with
    | some master =>
      match findPrevVote inp.previousVotes master with
      | some v => if v ≠ .yes then (.no, p) else voteLLMPart p inp.llm
      | none => (.no, p)
    | none => voteLLMPart p inp.llm

/-- The record of a sequence of `Player.vote` calls on one player: for
each call, the record before, the vote returned, and the record after. -/
def voteTrace (p : PlayerRec) : List VoteInput → List (PlayerRec × Vote × PlayerRec)
  | [] => []
  | inp :: rest =>
    let r := voteStep p inp
    (p, r.1, r.2) :: voteTrace r.2 rest

/-- The `used_dead_vote` flag observed before the first call and after
each call. -/
def flagTrace (p : PlayerRec) (inputs : List VoteInput) : List Bool :=
  p.usedDeadVote :: (voteTrace p inputs).map (fun t => t.2.2.usedDeadVote)

/-- Number of `false → true` transitions between adjacent entries. -/
def flipCount : List Bool → Nat
  | [] => 0
  | [_] => 0
  | a :: b :: l => (if a = false ∧ b = true then 1 else 0) + flipCount (b :: l)

/-! ## `_get_public_game_state`: the per-player public snapshot -/

/-- The per-player dictionary built by `Game._get_public_game_state`:
name, alive flag, and the ghost-vote flag (reported as `False` for living
players). -/
def publicPlayerState (p : PlayerRec) : String × Bool × Bool :=
  (p.name, p.alive, if !p.alive then p.usedDeadVote else false)

/-- The `player_state` list of the public snapshot. -/
def publicPlayerStates (gs : GS) : List (String × Bool × Bool) :=
  gs.players.map publicPlayerState

/-! ## Seeding (`Game.__init__`, lines 54–55) -/

/-- Python truthiness of the `random_seed: int | None` argument, as tested
by `if random_seed:`. -/
def pyTruthy : Option Int → Bool
  | none => false
  | some s => s ≠ 0

/-- The process-wide `random` state after `Game.__init__` runs
`if random_seed: random.seed(random_seed)`.  The `random` module itself is
external to the repository, so its state is abstracted to a value
(`ambient` before setup) and `random.seed` to an arbitrary function
`seedFn` of the seed alone; every subsequent random draw (seating shuffle,
name assignment, decoy choices) consumes this state. -/
def setupRngState (seedFn : Int → Nat) (ambient : Nat) (randomSeed : Option Int) : Nat :=
  if pyTruthy randomSeed then seedFn (randomSeed.getD 0) else ambient

/-! ## Concrete states used by counterexamples and witnesses -/

/-- Two living non-Demon players: `_game_over` returns Good here although
the alive count is at most 2. -/
def rosterTwoGood : List PlayerRec :=
  [{ name := "A", alignment := .good, character := .chef },
   { name := "B", alignment := .good, character := .empath }]

/-- The poison graph of Scenario C: players 0 (`A`) and 1 (`B`) poison
each other, and player 2 (`C`), alive and unpoisoned, also poisons 1. -/
def pgScenarioC : PoisonGraph :=
  { alive := [true, true, true]
    drunkChar := [false, false, false]
    poisoners := [[1], [0, 2], []] }

/-- A 3-player graph containing a 2-cycle (0 and 1 poison each other) and
a self-loop (2 poisons themselves). -/
def pgCycleSelfLoop : PoisonGraph :=
  { alive := [true, true, true]
    drunkChar := [false, false, false]
    poisoners := [[1], [0], [2]] }

/-- Five living players with the Imp at seat 0 and a single Minion (the
Poisoner, not the Scarlet Woman) at seat 1. -/
def gsImpSelf : GS :=
  { players :=
      [{ name := "A", alignment := .evil, character := .imp },
       { name := "B", alignment := .evil, character := .poisoner },
       { name := "C", alignment := .good, character := .chef },
       { name := "D", alignment := .good, character := .soldier },
       { name := "E", alignment := .good, character := .empath }] }

/-- A nominator (seat 0) who has already used their nomination today, and
a live nominee `B` who has not been nominated. -/
def gsUsedNominator : GS :=
  { players :=
      [{ name := "A", alignment := .good, character := .chef, usedNomination := true },
       { name := "B", alignment := .good, character := .empath }] }

/-- A Townsfolk nominator (seat 0) and an unimpaired, untriggered Virgin
nominee (seat 1). -/
def gsVirginNom : GS :=
  { players :=
      [{ name := "A", alignment := .good, character := .chef },
       { name := "V", alignment := .good, character := .virgin }] }

/-- A dead player whose ghost vote is already spent. -/
def deadSpentVoter : PlayerRec :=
  { name := "X", alignment := .good, character := .chef, alive := false, usedDeadVote := true }

/-- Two rosters agreeing on names, alive flags and ghost-vote flags but
with the Demon in different seats, different alignments and a different
poison graph. -/
def gsPublicA : GS :=
  { players :=
      [{ name := "A", alignment := .evil, character := .imp },
       { name := "B", alignment := .good, character := .chef, alive := false },
       { name := "C", alignment := .good, character := .empath }] }

def gsPublicB : GS :=
  { players :=
      [{ name := "A", alignment := .good, character := .soldier, poisonedBy := [2] },
       { name := "B", alignment := .good, character := .mayor, alive := false },
       { name := "C", alignment := .evil, character := .imp }] }

/-! # The claims -/

/-! ## C1: `_game_over` win evaluation -/

/-- C1, counterexample: the claim says the evaluation "returns Evil
exactly when the number of living players is at most 2", but on a roster
with two living players and no living Demon it returns Good, because the
Good check is performed first. -/
theorem c1_counterexample :
    aliveCount rosterTwoGood ≤ 2 ∧ gameOver rosterTwoGood ≠ some Alignment.evil := by
  decide

/-- C1 (amended): for every roster, the win evaluation returns Good
exactly when no living Demon-category player remains; it returns Evil
exactly when a living Demon remains and at most 2 players are alive; and
it returns no winner exactly when a living Demon remains and more than 2
players are alive. -/
theorem c1_game_over_characterization (players : List PlayerRec) :
    (gameOver players = some Alignment.good ↔ livingDemons players = 0)
    ∧ (gameOver players = some Alignment.evil ↔
        livingDemons players ≠ 0 ∧ aliveCount players ≤ 2)
    ∧ (gameOver players = none ↔
        livingDemons players ≠ 0 ∧ 2 < aliveCount players) := by
  unfold gameOver
  split_ifs with h1 h2
  · simp_all
  · simp_all
  · simp_all

/-! ## C2: nomination thresholds and chopping-block update -/

/-- C2: with an empty chopping block the yes-threshold is
`⌈aliveCount / 2⌉` and any tally at or above it puts `(tally, nominee)`
on the block; with an occupied block `(v, a)`, a tally of at least `v + 1`
replaces it with `(tally, b)`, a tally of exactly `v` clears the block,
and a lower tally leaves `(v, a)` unchanged. -/
theorem c2_chopping_block_rules (alive count nominee v a b : Nat) :
    (requiredToNominate none alive = (alive + 1) / 2)
    ∧ ((alive + 1) / 2 ≤ count →
        resolveTally none alive count nominee = some (count, nominee))
    ∧ (v + 1 ≤ count → resolveTally (some (v, a)) alive count b = some (count, b))
    ∧ (count = v → resolveTally (some (v, a)) alive count b = none)
    ∧ (count < v → resolveTally (some (v, a)) alive count b = some (v, a)) := by
  have hceil : requiredToNominate none alive = (alive + 1) / 2 := by
    simp only [requiredToNominate]
    split_ifs with h <;> omega
  refine ⟨hceil, fun hc => ?_, fun hc => ?_, fun hc => ?_, fun hc => ?_⟩
  · simp only [resolveTally, hceil, requiredToTie]
    rw [if_pos hc]
  · simp only [resolveTally, requiredToNominate, requiredToTie]
    rw [if_pos hc]
  · simp only [resolveTally, requiredToNominate, requiredToTie]
    rw [if_neg (by omega)]
    simp [hc]
  · simp only [resolveTally, requiredToNominate, requiredToTie]
    rw [if_neg (by omega), if_neg (by omega)]

/-- C2, witness at a concrete vote: 5 players alive, threshold 3; a tally
of 3 lands on the empty block; against an occupied block `(3, 0)`, a tally
of 4 replaces, 3 clears, 2 leaves it. -/
theorem c2_chopping_block_rules_witness :
    resolveTally none 5 3 7 = some (3, 7)
    ∧ resolveTally (some (3, 0)) 5 4 9 = some (4, 9)
    ∧ resolveTally (some (3, 0)) 5 3 9 = none
    ∧ resolveTally (some (3, 0)) 5 2 9 = some (3, 0) :=
  ⟨(c2_chopping_block_rules 5 3 7 0 0 0).2.1 (by decide),
   (c2_chopping_block_rules 5 4 9 3 0 9).2.2.1 (by decide),
   (c2_chopping_block_rules 5 3 9 3 0 9).2.2.2.1 (by decide),
   (c2_chopping_block_rules 5 2 9 3 0 9).2.2.2.2 (by decide)⟩

/-! ## C3: the 2-cycle-plus-external-poisoner scenario -/

/-- C3, counterexample: in the Scenario C graph the impairment check for
player 0 (`A`, the member of the 2-cycle whose partner is also poisoned by
the unpoisoned third player) returns NOT impaired, contrary to the claim:
`B` is impaired by the unimpaired poisoner `C`, so `B`'s poisoning of `A`
does not count. -/
theorem c3_counterexample : isDrunkOrPoisoned pgScenarioC 0 = false := by decide

/-- C3 (amended): in the Scenario C graph, `A` (player 0) resolves as NOT
impaired, while `B` (player 1, poisoned by the alive unimpaired `C`) is
impaired and `C` (player 2) is unimpaired. -/
theorem c3_two_cycle_with_external_poisoner :
    isDrunkOrPoisoned pgScenarioC 0 = false
    ∧ isDrunkOrPoisoned pgScenarioC 1 = true
    ∧ isDrunkOrPoisoned pgScenarioC 2 = false := by
  decide

/-! ## C5: Imp self-kill succession -/

/-- C5: the succession branch of `_imp_power` is dead code.  When the Imp
(seat 0) kills themselves, the guard `player.name == choice` compares the
Imp's name (a `str`) with the victim `Player` object and is always
`False`, so no Minion is promoted: every character on the roster is
unchanged, the Imp is dead, and the game is immediately over with a Good
win — contradicting the in-code comment ("pick a minion to become the new
Imp") and the script's character description. -/
theorem c5_imp_self_kill_no_promotion :
    ((impPower gsImpSelf 0 "A" List.head?).players.map (·.character))
        = gsImpSelf.players.map (·.character)
    ∧ ((impPower gsImpSelf 0 "A" List.head?).getP 0).alive = false
    ∧ gameOver (impPower gsImpSelf 0 "A" List.head?).players = some Alignment.good := by
  decide

/-! ## C6: nomination rejection conditions -/

/-- C6, counterexample: a nominator who has already used their nomination
today is NOT rejected by `_run_nomination` — the engine never checks the
nominator's flag (that is prevented upstream, by not offering the
nomination tool); the nomination proceeds normally. -/
theorem c6_counterexample :
    (gsUsedNominator.getP 0).usedNomination = true
    ∧ (runNominationPrefix gsUsedNominator 0 "B").1 = NomPrefixResult.proceed := by
  decide

/-- C6 (amended): `_run_nomination` rejects — takes no further action and
leaves the state unchanged — exactly when the nominee name does not
resolve against the roster or the nominee has already been nominated
today; the nominator's own used-nomination flag is not consulted. -/
theorem c6_rejection_conditions (gs : GS) (n : Nat) (name : String) :
    (gs.findPlayerIdx name = none →
      runNominationPrefix gs n name = (.rejectNotFound, gs))
    ∧ (∀ v, gs.findPlayerIdx name = some v → (gs.getP v).nominatedToday = true →
        runNominationPrefix gs n name = (.rejectAlreadyNominated, gs)) := by
  constructor
  · intro h
    unfold runNominationPrefix
    rw [h]
  · intro v hv hnom
    unfold runNominationPrefix
    rw [hv]
    simp [hnom]

/-- C6, witness: an unknown nominee name is rejected without state change,
and a nominee already nominated today is rejected without state change. -/
theorem c6_rejection_conditions_witness :
    runNominationPrefix gsUsedNominator 0 "Z" = (.rejectNotFound, gsUsedNominator)
    ∧ runNominationPrefix gsVirginNom 0 "V2" = (.rejectNotFound, gsVirginNom) :=
  ⟨(c6_rejection_conditions gsUsedNominator 0 "Z").1 (by decide),
   (c6_rejection_conditions gsVirginNom 0 "V2").1 (by decide)⟩

/-! ## C9: seeded reproducibility -/

/-- C9, counterexample: with `random_seed = 0` the guard
`if random_seed:` is false, `random.seed` is never called, and the RNG
state that the seating shuffle and all later random draws consume is
whatever the ambient process state happens to be — two runs with seed 0
but different ambient states diverge. -/
theorem c9_counterexample :
    setupRngState Int.natAbs 0 (some 0) ≠ setupRngState Int.natAbs 1 (some 0) := by
  decide

/-- C9 (amended): for every NONZERO seed, the post-setup RNG state is a
function of the seed alone — independent of the ambient state — so two
runs with the same script, character list and seed, fed identical
decision-provider responses, draw identical random values throughout.
Seed 0 is falsy in Python and skips the seeding call. -/
theorem c9_nonzero_seed_deterministic (seedFn : Int → Nat) (s : Int)
    (a₁ a₂ : Nat) (hs : s ≠ 0) :
    setupRngState seedFn a₁ (some s) = setupRngState seedFn a₂ (some s) := by
  unfold setupRngState pyTruthy
  simp [hs]

/-- C9, witness: with seed 42 the post-setup RNG state does not depend on
the ambient state. -/
theorem c9_nonzero_seed_deterministic_witness :
    setupRngState Int.natAbs 0 (some 42) = setupRngState Int.natAbs 1 (some 42) :=
  c9_nonzero_seed_deterministic Int.natAbs 42 0 1 (by decide)

/-! ## C10: the public per-player snapshot leaks no role information -/

/-- C10: the per-player public state built by `_get_public_game_state`
exposes only the name, the alive flag and (for dead players) the
ghost-vote flag: any two game states whose rosters agree pointwise on
those three fields — however much they differ in characters, alignments,
reminder tokens, or the poison graph — produce identical `player_state`
lists. -/
theorem c10_public_state_no_leak (gs₁ gs₂ : GS)
    (h : List.Forall₂
      (fun p q : PlayerRec =>
        p.name = q.name ∧ p.alive = q.alive ∧ p.usedDeadVote = q.usedDeadVote)
      gs₁.players gs₂.players) :
    publicPlayerStates gs₁ = publicPlayerStates gs₂ := by
  unfold publicPlayerStates
  have key : ∀ l₁ l₂ : List PlayerRec,
      List.Forall₂
        (fun p q : PlayerRec =>
          p.name = q.name ∧ p.alive = q.alive ∧ p.usedDeadVote = q.usedDeadVote)
        l₁ l₂ →
      l₁.map publicPlayerState = l₂.map publicPlayerState := by
    intro l₁ l₂ hl
    induction hl with
    | nil => rfl
    | cons hpq _ ih =>
      simp only [List.map_cons, ih]
      congr 1
      simp only [publicPlayerState]
      rw [hpq.1, hpq.2.1, hpq.2.2]
  exact key _ _ h

/-! ## Roster-update lemmas -/

theorem length_modifyAt (l : List α) (i : Nat) (f : α → α) :
    (modifyAt l i f).length = l.length := by
  induction l generalizing i with
  | nil => rfl
  | cons a l ihl =>
    cases i with
    | zero => rfl
    | succ i => simp [modifyAt, ihl]

theorem getD_modifyAt_self (l : List α) (i : Nat) (f : α → α) (d : α)
    (h : i < l.length) : (modifyAt l i f).getD i d = f (l.getD i d) := by
  induction l generalizing i with
  | nil => simp at h
  | cons a l ihl =>
    cases i with
    | zero => rfl
    | succ i =>
      simp only [modifyAt, List.getD_cons_succ]
      exact ihl i (by simpa using h)

theorem getD_modifyAt_field {β : Type} (l : List α) (i j : Nat) (f : α → α) (d : α)
    (gg : α → β) (h : ∀ a, gg (f a) = gg a) :
    gg ((modifyAt l i f).getD j d) = gg (l.getD j d) := by
  induction l generalizing i j with
  | nil => rfl
  | cons a l ihl =>
    cases i with
    | zero =>
      cases j with
      | zero => exact h a
      | succ j => rfl
    | succ i =>
      cases j with
      | zero => rfl
      | succ j =>
        simp only [modifyAt, List.getD_cons_succ]
        exact ihl i j

theorem map_modifyAt {β : Type} (l : List α) (i : Nat) (f : α → α)
    (gg : α → β) (h : ∀ a, gg (f a) = gg a) :
    (modifyAt l i f).map gg = l.map gg := by
  induction l generalizing i with
  | nil => rfl
  | cons a l ihl =>
    cases i with
    | zero => simp [modifyAt, h a]
    | succ i => simp [modifyAt, ihl i]

/-! ## Preservation lemmas for `_kill_player` -/

theorem scarletWomanCheck_getP_alive (gs : GS) (i j : Nat) :
    ((scarletWomanCheck gs i).getP j).alive = (gs.getP j).alive := by
  simp only [scarletWomanCheck]
  split_ifs with h
  · split
    · unfold changeCharacter GS.getP
      exact getD_modifyAt_field _ _ _ _ _ (fun p : PlayerRec => p.alive) (fun a => rfl)
    · rfl
  · rfl

theorem scarletWomanCheck_virginUsed (gs : GS) (i : Nat) :
    (scarletWomanCheck gs i).virginUsed = gs.virginUsed := by
  simp only [scarletWomanCheck]
  split_ifs with h
  · split
    · rfl
    · rfl
  · rfl

theorem scarletWomanCheck_choppingBlock (gs : GS) (i : Nat) :
    (scarletWomanCheck gs i).choppingBlock = gs.choppingBlock := by
  simp only [scarletWomanCheck]
  split_ifs with h
  · split
    · rfl
    · rfl
  · rfl

theorem killPlayer_virginUsed (gs : GS) (i : Nat) (b : Bool) :
    (killPlayer gs i b).virginUsed = gs.virginUsed := by
  unfold killPlayer
  rw [scarletWomanCheck_virginUsed]
  split_ifs <;> rfl

theorem killPlayer_choppingBlock (gs : GS) (i : Nat) (b : Bool) :
    (killPlayer gs i b).choppingBlock = gs.choppingBlock := by
  unfold killPlayer
  rw [scarletWomanCheck_choppingBlock]
  split_ifs <;> rfl

theorem killPlayer_getP_alive_self (gs : GS) (i : Nat) (b : Bool)
    (h : i < gs.players.length) : ((killPlayer gs i b).getP i).alive = false := by
  unfold killPlayer
  rw [scarletWomanCheck_getP_alive]
  split_ifs with hrk
  · unfold GS.getP
    rw [getD_modifyAt_self _ _ _ _ h]
  · unfold GS.getP
    rw [getD_modifyAt_self _ _ _ _ h]

/-- The impairment view only reads the alive flags, characters and poison
lists of the roster. -/
theorem GS_toPG_eq (gs1 gs2 : GS)
    (h1 : gs1.players.map (fun p => p.alive) = gs2.players.map (fun p => p.alive))
    (h2 : gs1.players.map (fun p => decide (p.character = Character.drunk))
        = gs2.players.map (fun p => decide (p.character = Character.drunk)))
    (h3 : gs1.players.map (fun p => p.poisonedBy)
        = gs2.players.map (fun p => p.poisonedBy)) :
    gs1.toPG = gs2.toPG := by
  unfold GS.toPG
  rw [h1, h2, h3]

theorem GS_isImpaired_congr (gs1 gs2 : GS) (h : gs1.toPG = gs2.toPG) (i : Nat) :
    gs1.isImpaired i = gs2.isImpaired i := by
  unfold GS.isImpaired
  rw [h]

/-! ## C4: the Virgin interrupt -/

/-- C4: when the resolved nominee is an untriggered Virgin, the
`VIRGIN_POWER_USED` token is consumed by this nomination no matter what
else happens; and if additionally the nominator registers as a Townsfolk
and the Virgin is unimpaired, the nomination returns the Virgin-kill
interrupt — the nominator is dead in the resulting state, the day ends
with no vote taken, and the chopping block is untouched. -/
theorem c4_virgin_interrupt (gs : GS) (n v : Nat) (name : String)
    (hn : n < gs.players.length)
    (hfind : gs.findPlayerIdx name = some v)
    (hvchar : (gs.getP v).character = Character.virgin)
    (hvnom : (gs.getP v).nominatedToday = false)
    (hvuse : gs.virginUsed = false) :
    (runNominationPrefix gs n name).2.virginUsed = true
    ∧ ((gs.getP n).character.registersTownsfolk = true →
       gs.isImpaired v = false →
       (runNominationPrefix gs n name).1 = NomPrefixResult.virginKill
       ∧ ((runNominationPrefix gs n name).2.getP n).alive = false
       ∧ (runNominationPrefix gs n name).2.choppingBlock = gs.choppingBlock) := by
  have hvnom' : (gs.players.getD v default).nominatedToday = false := hvnom
  unfold runNominationPrefix
  rw [hfind]
  simp only [GS.getP, hvnom', Bool.false_eq_true, if_false]
  set ps2 : List PlayerRec :=
    modifyAt (modifyAt gs.players v (fun p => { p with nominatedToday := true })) n
      (fun p => { p with usedNomination := true }) with hps2
  have hcharAt : ∀ j, (ps2.getD j default).character = (gs.players.getD j default).character := by
    intro j
    rw [hps2]
    exact (getD_modifyAt_field
        (modifyAt gs.players v (fun p => { p with nominatedToday := true })) n j
        (fun p => { p with usedNomination := true }) default
        (fun p : PlayerRec => p.character) (fun a => rfl)).trans
      (getD_modifyAt_field gs.players v j
        (fun p => { p with nominatedToday := true }) default
        (fun p : PlayerRec => p.character) (fun a => rfl))
  have hcharV := hcharAt v
  have hcharN := hcharAt n
  have hchV : (ps2.getD v default).character = Character.virgin := by
    rw [hcharV]
    exact hvchar
  rw [if_pos ⟨hchV, hvuse⟩]
  have hlen2 : ps2.length = gs.players.length := by
    rw [hps2, length_modifyAt, length_modifyAt]
  have htoPG : GS.toPG { gs with players := ps2, virginUsed := true } = GS.toPG gs := by
    apply GS_toPG_eq <;>
      (show ps2.map _ = _
       rw [hps2, map_modifyAt, map_modifyAt] <;> intro a <;> rfl)
  constructor
  · -- the token is consumed whether or not the nominator dies
    by_cases hcond :
        (ps2.getD n default).character.registersTownsfolk = true
          ∧ GS.isImpaired { gs with players := ps2, virginUsed := true } v = false
    · rw [if_pos hcond, killPlayer_virginUsed]
    · rw [if_neg hcond]
  · intro hreg himp
    have hregN : (ps2.getD n default).character.registersTownsfolk = true := by
      rw [hcharN]
      exact hreg
    have himpN : GS.isImpaired { gs with players := ps2, virginUsed := true } v = false := by
      rw [GS_isImpaired_congr _ gs htoPG v]
      exact himp
    rw [if_pos ⟨hregN, himpN⟩]
    refine ⟨rfl, ?_, ?_⟩
    · exact killPlayer_getP_alive_self _ n false
        (show n < ps2.length by rw [hlen2]; exact hn)
    · rw [killPlayer_choppingBlock]

/-- C4, witness: a Chef nominates the untriggered unimpaired Virgin — the
token is spent, the interrupt fires, the Chef dies, the block is
untouched. -/
theorem c4_virgin_interrupt_witness :
    (runNominationPrefix gsVirginNom 0 "V").2.virginUsed = true
    ∧ (runNominationPrefix gsVirginNom 0 "V").1 = NomPrefixResult.virginKill
    ∧ ((runNominationPrefix gsVirginNom 0 "V").2.getP 0).alive = false
    ∧ (runNominationPrefix gsVirginNom 0 "V").2.choppingBlock
        = gsVirginNom.choppingBlock :=
  have h := c4_virgin_interrupt gsVirginNom 0 1 "V" (by decide) (by decide)
    (by decide) (by decide) (by decide)
  ⟨h.1, (h.2 (by decide) (by decide)).1, (h.2 (by decide) (by decide)).2.1,
   (h.2 (by decide) (by decide)).2.2⟩

/-! ## C8: termination of the impairment traversal

The Python `_is_drunk_or_poisoned` has no fuel: its recursion terminates
because the visited set strictly grows along every recursive call.  The
embedding makes the recursion fuel-indexed; termination of the source
algorithm is the statement that the result of `dpAux` is the same for
every fuel of at least `n + 1`, i.e. the traversal never actually needs
unbounded depth. -/

theorem subset_insertVisited (p : Nat) (vis : List Nat) : vis ⊆ insertVisited p vis := by
  unfold insertVisited
  split_ifs
  · exact fun x hx => hx
  · exact fun x hx => List.mem_cons_of_mem p hx

theorem dpLoop_mono (g : PoisonGraph) (rec : Nat → List Nat → Bool × List Nat)
    (hrec : ∀ a v, v ⊆ (rec a v).2) :
    ∀ (lst : List Nat) (vis : List Nat), vis ⊆ (dpLoop g rec lst vis).2 := by
  intro lst
  induction lst with
  | nil => intro vis; exact fun x hx => hx
  | cons a rest ihl =>
    intro vis
    simp only [dpLoop]
    by_cases hskip : a ∈ vis ∨ g.aliveAt a = false
    · rw [if_pos hskip]
      exact ihl vis
    · rw [if_neg hskip]
      by_cases hr : (rec a vis).1
      · rw [if_pos hr]
        exact (hrec a vis).trans (ihl (rec a vis).2)
      · rw [if_neg hr]
        exact hrec a vis

theorem dpAux_mono (g : PoisonGraph) :
    ∀ (fuel p : Nat) (vis : List Nat), vis ⊆ (dpAux g fuel p vis).2 := by
  intro fuel
  induction fuel with
  | zero => intro p vis; exact fun x hx => hx
  | succ f ihf =>
    intro p vis
    simp only [dpAux]
    by_cases hd : g.drunkAt p
    · rw [if_pos hd]
      exact fun x hx => hx
    · rw [if_neg hd]
      exact (subset_insertVisited p vis).trans
        (dpLoop_mono g (dpAux g f) (fun a v => ihf a v) _ _)

/-- The loop computes the same answer under two versions of the recursive
call that agree on every state the loop can reach. -/
theorem dpLoop_congr (g : PoisonGraph) (rec₁ rec₂ : Nat → List Nat → Bool × List Nat)
    (vis₀ : List Nat)
    (hmono : ∀ a v, v ⊆ (rec₁ a v).2)
    (hagree : ∀ a v, a < g.n → a ∉ v → vis₀ ⊆ v → rec₁ a v = rec₂ a v) :
    ∀ (lst : List Nat) (vis : List Nat), (∀ a ∈ lst, a < g.n) → vis₀ ⊆ vis →
      dpLoop g rec₁ lst vis = dpLoop g rec₂ lst vis := by
  intro lst
  induction lst with
  | nil => intro vis _ _; rfl
  | cons a rest ihl =>
    intro vis hl hsub
    simp only [dpLoop]
    by_cases hskip : a ∈ vis ∨ g.aliveAt a = false
    · rw [if_pos hskip, if_pos hskip]
      exact ihl vis (fun b hb => hl b (List.mem_cons_of_mem a hb)) hsub
    · rw [if_neg hskip, if_neg hskip]
      push_neg at hskip
      have ha : a < g.n := hl a (List.mem_cons_self a rest)
      have heq : rec₁ a vis = rec₂ a vis := hagree a vis ha hskip.1 hsub
      rw [← heq]
      by_cases hr : (rec₁ a vis).1
      · rw [if_pos hr, if_pos hr]
        exact ihl (rec₁ a vis).2 (fun b hb => hl b (List.mem_cons_of_mem a hb))
          (hsub.trans (hmono a vis))
      · rw [if_neg hr, if_neg hr]

theorem filter_length_le_of_imp {p q : Nat → Bool} (h : ∀ x, p x = true → q x = true) :
    ∀ l : List Nat, (l.filter p).length ≤ (l.filter q).length := by
  intro l
  induction l with
  | nil => simp
  | cons b l ihl =>
    by_cases hb : p b = true
    · have hqb := h b hb
      simp only [List.filter_cons, hb, hqb, if_true, List.length_cons]
      omega
    · simp only [List.filter_cons, if_neg hb]
      by_cases hqb : q b = true
      · simp only [hqb, if_true, List.length_cons]
        omega
      · simp only [hqb, if_false]
        exact ihl

theorem filter_length_lt_of_witness {p q : Nat → Bool} (h : ∀ x, q x = true → p x = true) :
    ∀ l : List Nat, ∀ a ∈ l, p a = true → q a = false →
      (l.filter q).length < (l.filter p).length := by
  intro l
  induction l with
  | nil => intro a ha; exact absurd ha (by simp)
  | cons b l ihl =>
    intro a ha hpa hqa
    rcases List.mem_cons.mp ha with rfl | ha
    · have := filter_length_le_of_imp h l
      simp only [List.filter_cons, hpa, hqa]
      simp only [if_true, Bool.false_eq_true, if_false, List.length_cons]
      omega
    · by_cases hqb : q b = true
      · have hpb := h b hqb
        have := ihl a ha hpa hqa
        simp only [List.filter_cons, hqb, hpb, if_true, List.length_cons]
        omega
      · have hqb' : q b = false := by
          cases hqb2 : q b
          · rfl
          · exact absurd hqb2 hqb
        have := ihl a ha hpa hqa
        simp only [List.filter_cons, hqb', Bool.false_eq_true, if_false]
        by_cases hpb : p b = true
        · simp only [hpb, if_true, List.length_cons]
          omega
        · have hpb' : p b = false := by
            cases hpb2 : p b
            · rfl
            · exact absurd hpb2 hpb
          simp only [hpb', Bool.false_eq_true, if_false]
          omega

theorem meas_le_of_subset (g : PoisonGraph) {vis vis' : List Nat} (h : vis ⊆ vis') :
    meas g vis' ≤ meas g vis := by
  unfold meas
  apply filter_length_le_of_imp
  intro x hx
  simp only [decide_eq_true_eq] at hx ⊢
  exact fun hmem => hx (h hmem)

theorem meas_insertVisited_lt (g : PoisonGraph) {p : Nat} {vis : List Nat}
    (hp : p < g.n) (hpv : p ∉ vis) :
    meas g (insertVisited p vis) < meas g vis := by
  unfold meas insertVisited
  rw [if_neg hpv]
  apply filter_length_lt_of_witness
  · intro x hx
    simp only [decide_eq_true_eq, List.mem_cons] at hx ⊢
    exact fun hmem => hx (Or.inr hmem)
  · exact List.mem_range.mpr hp
  · simpa using hpv
  · simp

theorem meas_nil_le (g : PoisonGraph) : meas g [] ≤ g.n := by
  unfold meas
  calc ((List.range g.n).filter fun x => decide (x ∉ ([] : List Nat))).length
      ≤ (List.range g.n).length := List.length_filter_le _ _
    _ = g.n := List.length_range g.n

/-- Fuel irrelevance: two runs of the traversal on the same player and
visited set agree whenever both fuels dominate the number of unvisited
roster indices. -/
theorem dpAux_fuel_irrelevant (g : PoisonGraph) (hwf : g.WF) :
    ∀ (k p : Nat) (vis : List Nat) (f₁ f₂ : Nat),
      p < g.n → p ∉ vis → meas g vis ≤ k → k ≤ f₁ → k ≤ f₂ →
      dpAux g f₁ p vis = dpAux g f₂ p vis := by
  intro k
  induction k using Nat.strong_induction_on with
  | _ k ih =>
    intro p vis f₁ f₂ hp hpv hm h1 h2
    have hmeas1 : 1 ≤ meas g vis := by
      have hmem : p ∈ (List.range g.n).filter (fun x => decide (x ∉ vis)) :=
        List.mem_filter.mpr ⟨List.mem_range.mpr hp, by simpa using hpv⟩
      have hne : ((List.range g.n).filter (fun x => decide (x ∉ vis))) ≠ [] :=
        List.ne_nil_of_mem hmem
      have := List.length_pos.mpr hne
      unfold meas
      omega
    obtain ⟨f₁', rfl⟩ : ∃ m, f₁ = m + 1 := ⟨f₁ - 1, by omega⟩
    obtain ⟨f₂', rfl⟩ : ∃ m, f₂ = m + 1 := ⟨f₂ - 1, by omega⟩
    simp only [dpAux]
    by_cases hd : g.drunkAt p
    · rw [if_pos hd, if_pos hd]
    · rw [if_neg hd, if_neg hd]
      apply dpLoop_congr g (dpAux g f₁') (dpAux g f₂') (insertVisited p vis)
        (fun a v => dpAux_mono g f₁' a v)
      · intro a v haN hav hsubv
        apply ih (k - 1) (by omega) a v f₁' f₂' haN hav
        · have hva : meas g v ≤ meas g (insertVisited p vis) := meas_le_of_subset g hsubv
          have hlt : meas g (insertVisited p vis) < meas g vis :=
            meas_insertVisited_lt g hp hpv
          omega
        · omega
        · omega
      · exact hwf.2.2 p (List.mem_range.mpr hp)
      · exact fun x hx => hx

/-- C8: the impairment check is fuel-independent — any fuel of at least
`n + 1` (for `n` roster members) computes `isDrunkOrPoisoned`, so the
source algorithm, whose recursion depth is bounded by the strictly
growing visited set exactly as the fuel argument tracks, terminates on
every well-formed poison graph. -/
theorem c8_impairment_terminates (g : PoisonGraph) (hwf : g.WF) (p : Nat)
    (hp : p < g.n) (fuel : Nat) (hf : g.n + 1 ≤ fuel) :
    (dpAux g fuel p []).1 = isDrunkOrPoisoned g p := by
  unfold isDrunkOrPoisoned
  have heq := dpAux_fuel_irrelevant g hwf (g.n + 1) p [] fuel (g.n + 1) hp
    (by simp) (le_trans (meas_nil_le g) (by omega)) hf (le_refl _)
  rw [heq]

/-- C8, witness: on the concrete graph holding both a 2-cycle (players 0
and 1 poison each other) and a self-loop (player 2 poisons themselves),
any surplus fuel computes the same verdicts. -/
theorem c8_impairment_terminates_witness :
    (dpAux pgCycleSelfLoop 25 0 []).1 = isDrunkOrPoisoned pgCycleSelfLoop 0
    ∧ (dpAux pgCycleSelfLoop 25 2 []).1 = isDrunkOrPoisoned pgCycleSelfLoop 2
    ∧ isDrunkOrPoisoned pgCycleSelfLoop 0 = true
    ∧ isDrunkOrPoisoned pgCycleSelfLoop 2 = false :=
  ⟨c8_impairment_terminates pgCycleSelfLoop
      (by unfold PoisonGraph.WF; decide) 0 (by decide) 25 (by decide),
   c8_impairment_terminates pgCycleSelfLoop
      (by unfold PoisonGraph.WF; decide) 2 (by decide) 25 (by decide),
   by decide, by decide⟩

/-! ## C7: the ghost-vote flag -/

/-- One `Player.vote` call either leaves the record unchanged, or sets the
ghost-vote flag — and the latter only for a dead voter whose recorded vote
is YES. -/
theorem voteLLMPart_snd (p : PlayerRec) (l : LLMVoteResp) :
    (voteLLMPart p l).2 = p
    ∨ ((voteLLMPart p l).2 = { p with usedDeadVote := true }
        ∧ p.alive = false ∧ (voteLLMPart p l).1 = Vote.yes) := by
  cases l with
  | invalid => left; rfl
  | voteCall s =>
    by_cases hy : asciiUpper s = "YES"
    · by_cases ha : p.alive
      · left
        simp [voteLLMPart, hy, ha]
      · right
        refine ⟨?_, by simpa using ha, ?_⟩ <;> simp [voteLLMPart, hy, ha]
    · left
      simp [voteLLMPart, hy]

theorem voteStep_snd (p : PlayerRec) (inp : VoteInput) :
    (voteStep p inp).2 = p
    ∨ ((voteStep p inp).2 = { p with usedDeadVote := true }
        ∧ p.alive = false ∧ (voteStep p inp).1 = Vote.yes) := by
  unfold voteStep
  split_ifs with h
  · left; rfl
  · split
    · split
      · split_ifs with hv
        · left; rfl
        · exact voteLLMPart_snd p inp.llm
      · left; rfl
    · exact voteLLMPart_snd p inp.llm

/-- The ghost-vote flag never resets. -/
theorem voteStep_flag_mono (p : PlayerRec) (inp : VoteInput)
    (h : p.usedDeadVote = true) : ((voteStep p inp).2).usedDeadVote = true := by
  rcases voteStep_snd p inp with h2 | ⟨h2, _, _⟩ <;> simp [h2, h]

/-- A step that turns the flag on is a YES vote by a dead player. -/
theorem voteStep_transition (p : PlayerRec) (inp : VoteInput)
    (h1 : ((voteStep p inp).2).usedDeadVote = true)
    (h2 : p.usedDeadVote = false) :
    p.alive = false ∧ (voteStep p inp).1 = Vote.yes := by
  rcases voteStep_snd p inp with h3 | ⟨_, h4, h5⟩
  · rw [h3] at h1
    rw [h1] at h2
    exact absurd h2 (by simp)
  · exact ⟨h4, h5⟩

/-- A dead player whose ghost vote is spent is recorded as unable to
vote. -/
theorem voteStep_cantVote (p : PlayerRec) (inp : VoteInput)
    (h1 : p.alive = false) (h2 : p.usedDeadVote = true) :
    voteStep p inp = (Vote.cantVote, p) := by
  unfold voteStep
  rw [h1, h2]
  rfl

theorem flagTrace_cons (p : PlayerRec) (i : VoteInput) (rest : List VoteInput) :
    flagTrace p (i :: rest) =
      p.usedDeadVote :: flagTrace ((voteStep p i).2) rest := by
  simp [flagTrace, voteTrace]

/-- Once the flag is on, every later observation of it reads `true`. -/
theorem flagTrace_allTrue (inputs : List VoteInput) :
    ∀ p : PlayerRec, p.usedDeadVote = true → ∀ b ∈ flagTrace p inputs, b = true := by
  induction inputs with
  | nil =>
    intro p hp b hb
    simp [flagTrace, voteTrace] at hb
    rwa [hb]
  | cons i rest ih =>
    intro p hp b hb
    rw [flagTrace_cons] at hb
    rcases List.mem_cons.mp hb with rfl | hb
    · exact hp
    · exact ih _ (voteStep_flag_mono p i hp) b hb

theorem flipCount_allTrue : ∀ l : List Bool, (∀ b ∈ l, b = true) → flipCount l = 0
  | [], _ => rfl
  | [_], _ => rfl
  | a :: b :: l, h => by
    have ha : a = true := h a (by simp)
    have hrest : flipCount (b :: l) = 0 :=
      flipCount_allTrue (b :: l) (fun x hx => h x (by simp [List.mem_cons] at hx ⊢; tauto))
    simp [flipCount, ha, hrest]

/-- At most one `false → true` transition of the flag along any sequence
of `Player.vote` calls. -/
theorem flipCount_flagTrace_le_one (inputs : List VoteInput) :
    ∀ p : PlayerRec, flipCount (flagTrace p inputs) ≤ 1 := by
  induction inputs with
  | nil =>
    intro p
    simp [flagTrace, voteTrace, flipCount]
  | cons i rest ih =>
    intro p
    rw [flagTrace_cons]
    have hexp : flagTrace ((voteStep p i).2) rest =
        ((voteStep p i).2).usedDeadVote ::
          (voteTrace ((voteStep p i).2) rest).map (fun t => t.2.2.usedDeadVote) := rfl
    cases hp : p.usedDeadVote with
    | true =>
      have hq : ((voteStep p i).2).usedDeadVote = true := voteStep_flag_mono p i hp
      have hzero : flipCount (flagTrace ((voteStep p i).2) rest) = 0 :=
        flipCount_allTrue _ (flagTrace_allTrue rest _ hq)
      rw [hexp, hq] at hzero ⊢
      simp [flipCount, hzero]
    | false =>
      cases hq : ((voteStep p i).2).usedDeadVote with
      | true =>
        have hzero : flipCount (flagTrace ((voteStep p i).2) rest) = 0 :=
          flipCount_allTrue _ (flagTrace_allTrue rest _ hq)
        rw [hexp, hq] at hzero ⊢
        simp [flipCount, hzero]
      | false =>
        have h2 := ih ((voteStep p i).2)
        rw [hexp, hq] at h2 ⊢
        simp only [flipCount] at h2 ⊢
        simpa using h2

/-- C7: along any sequence of `Player.vote` calls on one player, (1) the
used-ghost-vote flag transitions `false → true` at most once; (2) a call
that turns the flag on is made by a dead player whose recorded vote is
YES; and (3) a call by a dead player whose flag is already on records the
vote as cannot-vote. -/
theorem c7_ghost_vote_invariant (p : PlayerRec) (inputs : List VoteInput) :
    flipCount (flagTrace p inputs) ≤ 1
    ∧ (∀ t ∈ voteTrace p inputs,
        (t.2.2).usedDeadVote = true → (t.1).usedDeadVote = false →
        (t.1).alive = false ∧ t.2.1 = Vote.yes)
    ∧ (∀ t ∈ voteTrace p inputs,
        (t.1).alive = false → (t.1).usedDeadVote = true →
        t.2.1 = Vote.cantVote) := by
  refine ⟨flipCount_flagTrace_le_one inputs p, ?_, ?_⟩
  · induction inputs generalizing p with
    | nil => intro t ht; simp [voteTrace] at ht
    | cons i rest ih =>
      intro t ht h1 h2
      simp only [voteTrace, List.mem_cons] at ht
      rcases ht with rfl | ht
      · exact voteStep_transition p i h1 h2
      · exact ih _ t ht h1 h2
  · induction inputs generalizing p with
    | nil => intro t ht; simp [voteTrace] at ht
    | cons i rest ih =>
      intro t ht h1 h2
      simp only [voteTrace, List.mem_cons] at ht
      rcases ht with rfl | ht
      · simp [voteStep_cantVote p i h1 h2]
      · exact ih _ t ht h1 h2

/-- C7, witness: a dead player with the flag on is recorded as
cannot-vote even when the provider answers YES, and a dead player with
the flag off who votes YES is a legitimate flag transition. -/
theorem c7_ghost_vote_invariant_witness :
    Vote.cantVote = Vote.cantVote
    ∧ ({ deadSpentVoter with usedDeadVote := false } : PlayerRec).alive = false :=
  ⟨(c7_ghost_vote_invariant deadSpentVoter [{ llm := .voteCall "YES" }]).2.2
      (deadSpentVoter, Vote.cantVote, deadSpentVoter) (by decide) rfl rfl,
   ((c7_ghost_vote_invariant { deadSpentVoter with usedDeadVote := false }
        [{ llm := .voteCall "YES" }]).2.1
      ({ deadSpentVoter with usedDeadVote := false }, Vote.yes, deadSpentVoter)
      (by decide) rfl rfl).1⟩

/-- C10, witness: two states with the Demon in different seats, different
alignments and a different poison graph yield the same public snapshot. -/
theorem c10_public_state_no_leak_witness :
    publicPlayerStates gsPublicA = publicPlayerStates gsPublicB :=
  c10_public_state_no_leak gsPublicA gsPublicB
    (by constructor
        · exact ⟨rfl, rfl, rfl⟩
        · constructor
          · exact ⟨rfl, rfl, rfl⟩
          · exact List.Forall₂.cons ⟨rfl, rfl, rfl⟩ List.Forall₂.nil)

end Botc
